import Mathlib

/-!
# Verification of the gallery-app flaky-test examples

Shallow embedding of the mock functions, the virtual-timer discipline and the
Jest configuration of the repository, together with proofs of the spec's
claims about them.  Random draws (`Math.random()` results) are modelled as
rationals; `Math.floor` is `Int.floor`; the scripted stub installed by
`mockReturnValueOnce` is a queue of rationals consumed in order.
-/

namespace GalleryApp

/-! ## Weighted random selection (tests/flaky-randomness.test.js, TEST 18) -/

/-- `weights.legendary` from the test. -/
def weightLegendary : ℚ := 5 / 100

/-- `weights.rare` from the test. -/
def weightRare : ℚ := 25 / 100

/-- `mockWeightedSelect` applied to one draw `r` of the stubbed `Math.random`:
classifies `r` against the thresholds `weights.legendary` and
`weights.legendary + weights.rare`. -/
def mockWeightedSelect (r : ℚ) : String :=
  if r < weightLegendary then "legendary"
  else if r < weightLegendary + weightRare then "rare"
  else "common"

/-- The scripted 20-value sequence fed to `Math.random` in TEST 18. -/
def weightedSeq : List ℚ :=
  [9/10, 8/10, 6/10, 3/10, 2/10, 1/100, 75/100, 26/100, 55/100, 4/10,
   15/100, 5/100, 95/100, 7/10, 85/100, 32/100, 22/100, 12/100, 88/100, 62/100]

/-! ## Fisher-Yates shuffle (tests/flaky-randomness.test.js, TEST 13) -/

/-- The destructuring swap `[a[i], a[j]] = [a[j], a[i]]`, as a pure list
operation; out-of-range indices leave the list unchanged. -/
def listSwap (l : List ℤ) (i j : Nat) : List ℤ :=
  match l.get? i, l.get? j with
  | some x, some y => (l.set i y).set j x
  | _, _ => l

/-- The index `j = Math.floor(Math.random() * (i + 1))` drawn for loop
index `i`. -/
def drawIndex (r : ℚ) (i : Nat) : Nat :=
  (⌊r * ((i : ℚ) + 1)⌋).toNat

/-- The loop body of `mockShuffle`: `i` runs downward; `k` counts the calls
made so far to the random source `rand`. -/
def mockShuffleGo (rand : Nat → ℚ) : Nat → List ℤ → Nat → List ℤ
  | _, l, 0 => l
  | k, l, i + 1 => mockShuffleGo rand (k + 1) (listSwap l (i + 1) (drawIndex (rand k) (i + 1))) i

/-- `mockShuffle`: copies the array and runs Fisher-Yates with indices drawn
from `rand` (`rand k` is the value of the `k`-th call to `Math.random`). -/
def mockShuffle (rand : Nat → ℚ) (array : List ℤ) : List ℤ :=
  mockShuffleGo rand 0 array (array.length - 1)

/-! ## Scripted stub sequence and `mockGenerateScore`
(tests/flaky-randomness.test.js, TEST 11) -/

/-- The state installed by `jest.spyOn(Math, "random").mockReturnValueOnce ...`:
the queue of scripted return values not yet consumed. -/
structure ScriptedStub where
  queue : List ℚ
deriving DecidableEq, Repr

/-- One call to the stubbed `Math.random`: returns the head of the queue and
the stub with that value consumed. -/
def stubNext (s : ScriptedStub) : ℚ × ScriptedStub :=
  (s.queue.headD 0, ⟨s.queue.tail⟩)

/-- `mockGenerateScore` on the draw `r`: `Math.floor(baseScore * r)` with
`baseScore = 100`. -/
def mockGenerateScore (r : ℚ) : ℤ :=
  ⌊(100 : ℚ) * r⌋

/-- One call of `mockGenerateScore()` against the stub state. -/
def callGenerateScore (s : ScriptedStub) : ℤ × ScriptedStub :=
  let p := stubNext s
  (mockGenerateScore p.1, p.2)

/-- `n` successive calls of `mockGenerateScore()`, listing the scores in call
order. -/
def runGenerateScores : Nat → ScriptedStub → List ℤ
  | 0, _ => []
  | n + 1, s =>
    let p := callGenerateScore s
    p.1 :: runGenerateScores n p.2

/-! ## Random ID generation (tests/flaky-randomness.test.js, TEST 15) -/

/-- `mockGenerateId` on the draw `r`:
`Math.floor(Math.random() * 100).toString()`. -/
def mockGenerateId (r : ℚ) : String :=
  toString ⌊r * 100⌋

/-- The size of the `Set` after inserting the IDs generated from the draws
`rs` (a JavaScript `Set` keeps one copy of each distinct string). -/
def generatedIdsSize (rs : List ℚ) : ℕ :=
  (rs.map mockGenerateId).toFinset.card

/-! ## Jest configuration (jest.config.js) -/

/-- `process.env.CI === "true" || process.env.GITHUB_ACTIONS === "true"`;
an absent variable is `none`. -/
def isCI (ci gha : Option String) : Bool :=
  (ci == some "true") || (gha == some "true")

/-- The computed `testPathIgnorePatterns` entry of the exported config. -/
def testPathIgnorePatterns (ci gha : Option String) : List String :=
  if isCI ci gha then ["flaky-.*\\.test\\.js"] else []

/-! ## Per-test stubbing and restoration of globals -/

/-- The nondeterministic globals a test may stub: the `Math.random`
implementation and the system clock read by `Date.now()`. -/
structure TestGlobals where
  random : Nat → ℚ
  clock : ℚ

/-- Modelled from the spec: the jest `jest.spyOn(...).mockReturnValue(...)` /
`jest.setSystemTime(...)` machinery is library code not present in the
repository; per spec §9 it performs a "reversible substitution of a
nondeterministic dependency": installing a stub replaces the globals and
saves the originals. -/
def jestSpyOn (g : TestGlobals) (stubRandom : Nat → ℚ) (stubClock : ℚ) :
    TestGlobals × TestGlobals :=
  ({ random := stubRandom, clock := stubClock }, g)

/-- Modelled from the spec: `mockRestore` (and the `restoreMocks`/`resetMocks`
configuration) puts the saved original implementations back at test end. -/
def jestMockRestore (saved : TestGlobals) : TestGlobals :=
  saved

/-! ## Fake timers (jest.useFakeTimers / advanceTimersByTime)

The virtual-timer world of `jest.useFakeTimers()`: pending `setTimeout`
callbacks are kept in a queue sorted by absolute virtual fire time (ties in
scheduling order), and `advanceTimersByTime` fires every callback due at or
before the new horizon, synchronously, setting the mocked `Date.now()` to
each callback's fire time as it runs. -/

/-- One pending `setTimeout` callback: its id, its absolute virtual fire
time, and its action on the test state.  The action receives the virtual
clock value (`Date.now()`) at the moment it fires. -/
structure Timer (σ : Type) where
  id : Nat
  time : ℚ
  action : ℚ → σ → σ

/-- The fake-timer world: virtual clock, next fresh timer id, pending timers
(sorted by fire time), and the test state `σ`. -/
structure Machine (σ : Type) where
  now : ℚ
  nextId : Nat
  timers : List (Timer σ)
  st : σ

/-- Insert a pending timer into the queue, keeping it sorted by fire time; a
timer scheduled later goes after existing timers with the same fire time. -/
def insertTimer {σ : Type} (t : Timer σ) : List (Timer σ) → List (Timer σ)
  | [] => [t]
  | u :: us => if t.time < u.time then t :: u :: us else u :: insertTimer t us

/-- `setTimeout(action, delay)`: schedules `action` at `now + delay` and
returns the fresh timer id. -/
def setTimeout {σ : Type} (m : Machine σ) (action : ℚ → σ → σ) (delay : ℚ) :
    Nat × Machine σ :=
  (m.nextId,
    { m with
      nextId := m.nextId + 1
      timers := insertTimer ⟨m.nextId, m.now + delay, action⟩ m.timers })

/-- `clearTimeout(id)`: drops the pending timer with that id, if any. -/
def clearTimeout {σ : Type} (m : Machine σ) (i : Nat) : Machine σ :=
  { m with timers := m.timers.filter (fun t => t.id != i) }

/-- Fire, in queue order, every pending timer due at or before `horizon`,
handing each action the virtual time at which it fires; returns the
remaining queue and the final state. -/
def runDue {σ : Type} (horizon : ℚ) : List (Timer σ) → σ → List (Timer σ) × σ
  | [], s => ([], s)
  | t :: ts, s =>
    if t.time ≤ horizon then runDue horizon ts (t.action t.time s)
    else (t :: ts, s)

/-- `jest.advanceTimersByTime(delta)`: fires all callbacks due within the
next `delta` virtual milliseconds, then leaves the clock at the horizon. -/
def advanceTimersByTime {σ : Type} (m : Machine σ) (delta : ℚ) : Machine σ :=
  let p := runDue (m.now + delta) m.timers m.st
  { now := m.now + delta, nextId := m.nextId, timers := p.1, st := p.2 }

/-! ## The random-delay test (tests/flaky-randomness.test.js, TEST 17) -/

/-- The observable state of TEST 17: the flag set by the delayed operation,
plus what the assertion callback recorded at the moment it ran. -/
structure DelayTestState where
  operationCompleted : Bool
  completedAtAssert : Option Bool
  elapsedAtAssert : Option ℚ

/-- `mockRandomDelayOperation`: schedules `operationCompleted = true` after
`Math.random() * 200 + 100` virtual milliseconds. -/
def mockRandomDelayOperation (r : ℚ) (m : Machine DelayTestState) :
    Machine DelayTestState :=
  (setTimeout m (fun _ s => { s with operationCompleted := true }) (r * 200 + 100)).2

/-- The assertion callback of TEST 17, scheduled at 300ms: records
`Date.now() - startTime` and the completion flag as it observes them. -/
def delayAssertAction (startTime : ℚ) : ℚ → DelayTestState → DelayTestState :=
  fun now s =>
    { s with
      completedAtAssert := some s.operationCompleted
      elapsedAtAssert := some (now - startTime) }

/-- The whole of TEST 17: from a fresh fake-timer world at `startTime`, run
`mockRandomDelayOperation` with the draw `r`, schedule the assertions at
300ms, then `jest.advanceTimersByTime(300)`. -/
def delayTestRun (startTime r : ℚ) : Machine DelayTestState :=
  let m0 : Machine DelayTestState :=
    { now := startTime, nextId := 0, timers := [], st := ⟨false, none, none⟩ }
  let m1 := mockRandomDelayOperation r m0
  let m2 := (setTimeout m1 (delayAssertAction startTime) 300).2
  advanceTimersByTime m2 300

/-! ## The debounced toggle (tests/flaky-interactions.test.js, FLAKY TEST 3) -/

/-- The observable state of FLAKY TEST 3: the toggle flag, how many times
the debounced body ran, and the `#toggle-status` text. -/
structure ToggleState where
  isOn : Bool
  toggleCount : Nat
  statusText : String
deriving DecidableEq, Repr

/-- The debounced callback body: flip `isOn`, bump `toggleCount`, render the
new state. -/
def toggleAction : ℚ → ToggleState → ToggleState := fun _ s =>
  { isOn := !s.isOn
    toggleCount := s.toggleCount + 1
    statusText := if !s.isOn then "On" else "Off" }

/-- The debounce delay `Math.random() * 120 + 80` with the random source
stubbed to the constant 0.5, i.e. 140ms. -/
def debounceDelay : ℚ := 1 / 2 * 120 + 80

/-- One click of the toggle button, i.e. one call of `debouncedToggle`:
`clearTimeout(timeout)` on the saved timeout id (a no-op before the first
click) and then `timeout = setTimeout(..., 140)`. -/
def debouncedToggle (p : Option Nat × Machine ToggleState) :
    Option Nat × Machine ToggleState :=
  let m := match p.1 with
    | some i => clearTimeout p.2 i
    | none => p.2
  let q := setTimeout m toggleAction debounceDelay
  (some q.1, q.2)

/-- The initial world of FLAKY TEST 3: fake timers, status showing "Off",
no pending timeout. -/
def toggleInit : Machine ToggleState :=
  { now := 0, nextId := 0, timers := [], st := ⟨false, 0, "Off"⟩ }

/-- `n` rapid clicks of the toggle button, with no virtual time elapsing
between them. -/
def rapidToggles : Nat → Option Nat × Machine ToggleState
  | 0 => (none, toggleInit)
  | n + 1 => debouncedToggle (rapidToggles n)

/-- The test run: `n` rapid clicks, then `jest.advanceTimersByTime(250)` to
flush past the 140ms debounce. -/
def debounceTestRun (n : Nat) : Machine ToggleState :=
  advanceTimersByTime (rapidToggles n).2 250

/-! ## Retry with scripted outcomes (tests/flaky-network.test.js) -/

/-- The object `{ success, attempts }` resolved by `mockUnreliableApi`. -/
structure MockResult where
  success : Bool
  attempts : Nat
deriving DecidableEq, Repr

/-- `const maxRetries = 3`. -/
def maxRetries : Nat := 3

/-- `mockUnreliableApi` at its `k`-th call (`k` is `attemptCount` before the
increment): succeeds iff `outcomes[attemptCount - 1] === true`, with an
out-of-range index reading `undefined` and hence failing. -/
def mockUnreliableApi (outcomes : List Bool) (k : Nat) : Except String MockResult :=
  if outcomes.getD k false = true then .ok ⟨true, k + 1⟩
  else .error ("Attempt " ++ toString (k + 1) ++ " failed")

/-- The retry loop of `mockRetryRequest`: loop index `i`, with
`remaining = maxRetries - i` iterations left; returns the outcome together
with the final `attemptCount`.  The `remaining = 0` arm is the loop falling
through, which cannot happen when `maxRetries` iterations start from 0. -/
def retryGo (outcomes : List Bool) : Nat → Nat → Except String MockResult × Nat
  | 0, i => (.ok ⟨false, 0⟩, i)
  | r + 1, i =>
    match mockUnreliableApi outcomes i with
    | .ok res => (.ok res, i + 1)
    | .error e => if r = 0 then (.error e, i + 1) else retryGo outcomes r (i + 1)

/-- `mockRetryRequest` with the fixed `maxRetries = 3`, on the scripted
outcome sequence; the second component is the final `attemptCount`, i.e. how
many times `mockUnreliableApi` was called. -/
def mockRetryRequest (outcomes : List Bool) : Except String MockResult × Nat :=
  retryGo outcomes maxRetries 0

end GalleryApp

namespace GalleryApp

/-- C1: the 20 scripted draws classified by `mockWeightedSelect` give exactly
13 common, 6 rare and 1 legendary, and the sequence indeed has 20 entries. -/
theorem weightedSelect_counts :
    ((weightedSeq.map mockWeightedSelect).count "common" = 13 ∧
      (weightedSeq.map mockWeightedSelect).count "rare" = 6 ∧
      (weightedSeq.map mockWeightedSelect).count "legendary" = 1) ∧
    weightedSeq.length = 20 := by
  refine ⟨⟨?_, ?_, ?_⟩, ?_⟩ <;>
    norm_num [weightedSeq, mockWeightedSelect, weightLegendary, weightRare, List.count_cons]
  all_goals decide

/-- C2: with the random source stubbed to the constant 0, `mockShuffle` sends
`[1,2,3,4,5]` to exactly `[2,3,4,5,1]`. -/
theorem shuffle_const_zero :
    mockShuffle (fun _ => 0) [1, 2, 3, 4, 5] = [2, 3, 4, 5, 1] := by
  norm_num [mockShuffle, mockShuffleGo, listSwap, drawIndex]

/-- Replacing the entry of `t` at `k` by `a` and re-consing the old entry is
a permutation of `a :: t`. -/
theorem cons_get_set_perm (t : List ℤ) (k : Nat) (hk : k < t.length) (a : ℤ) :
    (t.get ⟨k, hk⟩ :: t.set k a).Perm (a :: t) := by
  induction t generalizing k with
  | nil => exact absurd hk (by simp)
  | cons b s ih =>
    cases k with
    | zero => simpa using List.Perm.swap a b s
    | succ k =>
      have hk' : k < s.length := by simpa using hk
      have step1 : ((b :: s).get ⟨k + 1, hk⟩ :: (b :: s).set (k + 1) a).Perm
          (b :: s.get ⟨k, hk'⟩ :: s.set k a) := by
        simpa using List.Perm.swap b (s.get ⟨k, hk'⟩) (s.set k a)
      have step2 : (b :: s.get ⟨k, hk'⟩ :: s.set k a).Perm (b :: a :: s) :=
        List.Perm.cons b (ih k hk')
      have step3 : (b :: a :: s).Perm (a :: b :: s) := List.Perm.swap a b s
      exact (step1.trans step2).trans step3

/-- The two-index swap of `listSwap` never changes the multiset of entries. -/
theorem listSwap_perm (l : List ℤ) (i j : Nat) : (listSwap l i j).Perm l := by
  unfold listSwap
  cases hi : l.get? i with
  | none => exact List.Perm.refl l
  | some x =>
    cases hj : l.get? j with
    | none => exact List.Perm.refl l
    | some y =>
      have hi' : i < l.length := List.get?_eq_some.mp hi |>.1
      have hj' : j < l.length := List.get?_eq_some.mp hj |>.1
      have hx : l.get ⟨i, hi'⟩ = x := by
        have := List.get?_eq_some.mp hi
        exact this.2
      have hy : l.get ⟨j, hj'⟩ = y := by
        have := List.get?_eq_some.mp hj
        exact this.2
      subst hx hy
      clear hi hj
      induction l generalizing i j with
      | nil => exact absurd hi' (by simp)
      | cons b s ih =>
        cases i with
        | zero =>
          cases j with
          | zero => simp
          | succ j =>
            have hj'' : j < s.length := by simpa using hj'
            simpa using cons_get_set_perm s j hj'' b
        | succ i =>
          have hi'' : i < s.length := by simpa using hi'
          cases j with
          | zero =>
            simpa using cons_get_set_perm s i hi'' b
          | succ j =>
            have hj'' : j < s.length := by simpa using hj'
            simpa using List.Perm.cons b (ih i j hi'' hj'')

/-- The Fisher-Yates loop only ever swaps entries, so it permutes. -/
theorem mockShuffleGo_perm (rand : Nat → ℚ) (i k : Nat) (l : List ℤ) :
    (mockShuffleGo rand k l i).Perm l := by
  induction i generalizing k l with
  | zero => exact List.Perm.refl l
  | succ i ih =>
    exact (ih (k + 1) _).trans (listSwap_perm l (i + 1) (drawIndex (rand k) (i + 1)))

/-- C8: for every input list and every random source with draws in `[0,1)`,
`mockShuffle` returns a rearrangement of the input: same length and same
multiset of elements, so sorting the output equals sorting the input.  (The
JS function operates on the copy `[...array]`; the embedding is a pure
function, so the input list itself is unchanged by construction.) -/
theorem shuffle_is_permutation (rand : Nat → ℚ) (array : List ℤ)
    (hr : ∀ k, 0 ≤ rand k ∧ rand k < 1) :
    (mockShuffle rand array).Perm array ∧
    (mockShuffle rand array).length = array.length ∧
    (mockShuffle rand array).mergeSort (fun a b => decide (a ≤ b)) =
      array.mergeSort (fun a b => decide (a ≤ b)) := by
  clear hr
  have hperm : (mockShuffle rand array).Perm array := mockShuffleGo_perm rand _ 0 array
  refine ⟨hperm, hperm.length_eq, ?_⟩
  have htrans : ∀ a b c : ℤ,
      decide (a ≤ b) = true → decide (b ≤ c) = true → decide (a ≤ c) = true := by
    intro a b c hab hbc
    simp only [decide_eq_true_eq] at hab hbc ⊢
    omega
  have htotal : ∀ a b : ℤ, (decide (a ≤ b) || decide (b ≤ a)) = true := by
    intro a b
    simpa using le_total a b
  have hs1 := List.sorted_mergeSort htrans htotal (mockShuffle rand array)
  have hs2 := List.sorted_mergeSort htrans htotal array
  have hperm2 :
      ((mockShuffle rand array).mergeSort (fun a b => decide (a ≤ b))).Perm
        (array.mergeSort (fun a b => decide (a ≤ b))) :=
    ((List.mergeSort_perm _ _).trans hperm).trans (List.mergeSort_perm _ _).symm
  haveI : IsAntisymm ℤ (· ≤ ·) := ⟨fun _ _ hab hba => le_antisymm hab hba⟩
  refine List.eq_of_perm_of_sorted (r := (· ≤ ·)) hperm2 ?_ ?_
  · exact hs1.imp (fun h => by simpa using h)
  · exact hs2.imp (fun h => by simpa using h)

/-- Witness for C8: the shuffle of the test's own run (draws all 0, input
`[1,2,3,4,5]`) is a rearrangement of the input. -/
theorem shuffle_is_permutation_witness :
    (mockShuffle (fun _ => 0) [1, 2, 3, 4, 5]).Perm [1, 2, 3, 4, 5] ∧
    (mockShuffle (fun _ => 0) [1, 2, 3, 4, 5]).length = ([1, 2, 3, 4, 5] : List ℤ).length ∧
    (mockShuffle (fun _ => 0) [1, 2, 3, 4, 5]).mergeSort (fun a b => decide (a ≤ b)) =
      ([1, 2, 3, 4, 5] : List ℤ).mergeSort (fun a b => decide (a ≤ b)) :=
  shuffle_is_permutation (fun _ => 0) [1, 2, 3, 4, 5] (fun _ => by norm_num)

/-- C4: the stubbed random source consumes scripted values in queue order,
and with the script 0.86, 0.12, 0.42 the three successive calls of
`mockGenerateScore` return 86, 12, 42 in that order (deterministically: the
run is a pure function of the script). -/
theorem scripted_stub_consumes_in_order :
    (∀ (v : ℚ) (rest : List ℚ), stubNext ⟨v :: rest⟩ = (v, ⟨rest⟩)) ∧
    runGenerateScores 3 ⟨[86/100, 12/100, 42/100]⟩ = [86, 12, 42] := by
  constructor
  · intro v rest
    rfl
  · norm_num [runGenerateScores, callGenerateScore, stubNext, mockGenerateScore]

/-- C3: for any 150 draws in `[0,1)`, the uniqueness set of generated IDs has
size strictly below 150 and at most 100 (there are only 100 possible IDs). -/
theorem generateId_collisions (rs : List ℚ) (hlen : rs.length = 150)
    (hb : ∀ r ∈ rs, 0 ≤ r ∧ r < 1) :
    generatedIdsSize rs < 150 ∧ generatedIdsSize rs ≤ 100 := by
  have hsub : (rs.map mockGenerateId).toFinset ⊆
      (Finset.range 100).image (fun n : ℕ => toString ((n : ℤ))) := by
    intro s hs
    simp only [List.mem_toFinset, List.mem_map] at hs
    obtain ⟨r, hr, rfl⟩ := hs
    obtain ⟨h0, h1⟩ := hb r hr
    have hf0 : 0 ≤ ⌊r * 100⌋ := Int.floor_nonneg.mpr (by positivity)
    have hf1 : ⌊r * 100⌋ < 100 := by
      have hlt : r * 100 < 100 := by nlinarith
      exact Int.floor_lt.mpr (by exact_mod_cast hlt)
    refine Finset.mem_image.mpr ⟨(⌊r * 100⌋).toNat, Finset.mem_range.mpr (by omega), ?_⟩
    simp only [mockGenerateId]
    exact congrArg toString (Int.toNat_of_nonneg hf0)
  have h100 : generatedIdsSize rs ≤ 100 := by
    calc (rs.map mockGenerateId).toFinset.card
        ≤ ((Finset.range 100).image fun n : ℕ => toString ((n : ℤ))).card :=
          Finset.card_le_card hsub
      _ ≤ (Finset.range 100).card := Finset.card_image_le
      _ = 100 := Finset.card_range 100
  exact ⟨lt_of_le_of_lt h100 (by norm_num), h100⟩

/-- Witness for C3: the hypotheses of `generateId_collisions` hold for the
concrete run in which every one of the 150 draws is 0. -/
theorem generateId_collisions_witness :
    generatedIdsSize (List.replicate 150 (0 : ℚ)) < 150 ∧
    generatedIdsSize (List.replicate 150 (0 : ℚ)) ≤ 100 :=
  generateId_collisions (List.replicate 150 0) (by simp)
    (fun r hr => by rw [List.eq_of_mem_replicate hr]; norm_num)

/-- C5: the config ignores `flaky-*.test.js` exactly when `CI` or
`GITHUB_ACTIONS` is the string "true", and ignores nothing otherwise. -/
theorem ci_ignores_flaky_tests (ci gha : Option String) :
    (testPathIgnorePatterns ci gha = ["flaky-.*\\.test\\.js"] ↔
      (ci = some "true" ∨ gha = some "true")) ∧
    (testPathIgnorePatterns ci gha = [] ↔
      ¬(ci = some "true" ∨ gha = some "true")) := by
  unfold testPathIgnorePatterns isCI
  by_cases h : ci = some "true" ∨ gha = some "true"
  · rcases h with h | h <;> simp [h]
  · push_neg at h
    simp [h.1, h.2]

/-- Timers left behind by `runDue` on a time-sorted queue lie strictly past
the horizon: every callback due at or before the horizon has fired. -/
theorem runDue_rest_late {σ : Type} (horizon : ℚ) (ts : List (Timer σ)) (s : σ)
    (hsort : ts.Pairwise (fun a b => a.time ≤ b.time)) :
    ∀ u ∈ (runDue horizon ts s).1, horizon < u.time := by
  induction ts generalizing s with
  | nil =>
    intro u hu
    simp [runDue] at hu
  | cons t ts ih =>
    intro u hu
    rw [List.pairwise_cons] at hsort
    by_cases h : t.time ≤ horizon
    · rw [runDue, if_pos h] at hu
      exact ih _ hsort.2 u hu
    · rw [runDue, if_neg h] at hu
      rcases List.mem_cons.mp hu with rfl | hu
      · exact lt_of_not_le h
      · exact lt_of_lt_of_le (lt_of_not_le h) (hsort.1 u hu)

/-- C6: on a time-sorted queue, `advanceTimersByTime` fires every pending
callback due at or before the horizon (none survives), synchronously; in the
random-delay test, for any draw `r ∈ [0,1)` the operation (scheduled at
`r*200+100 ∈ [100,300)`) fires before the assertion callback scheduled at
300ms, so the assertions observe `operationCompleted = true`, a measured
virtual elapsed time of at least 100ms, and an empty timer queue. -/
theorem fakeTimers_fire_before_assertions :
    (∀ (σ : Type) (m : Machine σ) (delta : ℚ),
      m.timers.Pairwise (fun a b => a.time ≤ b.time) →
      ∀ u ∈ (advanceTimersByTime m delta).timers, m.now + delta < u.time) ∧
    (∀ startTime r : ℚ, 0 ≤ r → r < 1 →
      (delayTestRun startTime r).st.completedAtAssert = some true ∧
      (∃ e, (delayTestRun startTime r).st.elapsedAtAssert = some e ∧ 100 ≤ e) ∧
      (delayTestRun startTime r).timers = []) := by
  constructor
  · intro σ m delta hsort u hu
    exact runDue_rest_late _ _ _ hsort u hu
  · intro startTime r h0 h1
    have hdue : startTime + (r * 200 + 100) ≤ startTime + 300 := by linarith
    have hord : ¬ (startTime + 300 < startTime + (r * 200 + 100)) := by linarith
    simp only [delayTestRun, mockRandomDelayOperation, setTimeout, insertTimer,
      advanceTimersByTime, runDue, delayAssertAction, hord, if_false, hdue, if_true,
      le_refl, ite_true, if_neg, not_false_iff]
    refine ⟨by simp, ⟨startTime + 300 - startTime, by simp, by linarith⟩, by simp⟩

/-- Witness for C6: the concrete run with `startTime = 0` and the draw 0.5
(the operation scheduled at 200ms). -/
theorem fakeTimers_fire_before_assertions_witness :
    (delayTestRun 0 (1/2)).st.completedAtAssert = some true ∧
    (∃ e, (delayTestRun 0 (1/2)).st.elapsedAtAssert = some e ∧ 100 ≤ e) ∧
    (delayTestRun 0 (1/2)).timers = [] :=
  fakeTimers_fire_before_assertions.2 0 (1/2) (by norm_num) (by norm_num)

/-- After `n + 1` rapid clicks only the last scheduled debounce timeout is
pending: each click cancels the previous one. -/
theorem rapidToggles_succ (n : Nat) :
    rapidToggles (n + 1) =
      (some n,
        { now := 0, nextId := n + 1,
          timers := [⟨n, 0 + debounceDelay, toggleAction⟩],
          st := ⟨false, 0, "Off"⟩ }) := by
  induction n with
  | zero => rfl
  | succ k ih =>
    rw [rapidToggles, ih]
    simp [debouncedToggle, clearTimeout, setTimeout, insertTimer]

/-- C9: any `n ≥ 1` rapid clicks of the debounced toggle, with no virtual
time between them, coalesce into exactly one delayed action: after advancing
virtual time past the 140ms debounce the toggle body has run once
(`toggleCount = 1`), the status flipped from "Off" to "On", and the outcome
equals that of a single click. -/
theorem debounce_coalesces (n : Nat) (hn : 1 ≤ n) :
    (debounceTestRun n).st.toggleCount = 1 ∧
    (debounceTestRun n).st.isOn = true ∧
    (debounceTestRun n).st.statusText = "On" ∧
    (debounceTestRun n).st = (debounceTestRun 1).st := by
  obtain ⟨m, rfl⟩ : ∃ m, n = m + 1 := ⟨n - 1, by omega⟩
  have hfire : (debounceDelay : ℚ) ≤ 250 := by norm_num [debounceDelay]
  have key : ∀ k : Nat, (debounceTestRun (k + 1)).st = ⟨true, 1, "On"⟩ := by
    intro k
    rw [debounceTestRun, rapidToggles_succ k]
    simp [advanceTimersByTime, runDue, hfire, toggleAction]
  have hm := key m
  have h1 : (debounceTestRun 1).st = ⟨true, 1, "On"⟩ := key 0
  rw [hm, h1]
  exact ⟨rfl, rfl, rfl, rfl⟩

/-- Witness for C9: the test's own run of three rapid clicks. -/
theorem debounce_coalesces_witness :
    (debounceTestRun 3).st.toggleCount = 1 ∧
    (debounceTestRun 3).st.isOn = true ∧
    (debounceTestRun 3).st.statusText = "On" ∧
    (debounceTestRun 3).st = (debounceTestRun 1).st :=
  debounce_coalesces 3 (by norm_num)

/-- C7: stubbing `Math.random` and the clock and then restoring is the
identity on the global state, the stub is in force while installed, and a
later test observing the restored globals sees exactly to the original
behavior. -/
theorem spy_restore_roundtrip (g : TestGlobals) (stubRandom : Nat → ℚ) (stubClock : ℚ) :
    jestMockRestore (jestSpyOn g stubRandom stubClock).2 = g ∧
    (jestSpyOn g stubRandom stubClock).1.random = stubRandom ∧
    (jestSpyOn g stubRandom stubClock).1.clock = stubClock ∧
    ∀ (α : Type) (laterTest : TestGlobals → α),
      laterTest (jestMockRestore (jestSpyOn g stubRandom stubClock).2) = laterTest g := by
  exact ⟨rfl, rfl, rfl, fun α laterTest => rfl⟩

/-- C10: the retry wrapper makes at most `maxRetries` calls to the API;
whenever attempt `i < maxRetries` is the first scripted success it resolves
with that attempt's result (`success = true`, `attempts = i + 1`) after
`i + 1` calls; in particular the scripted `[fail, fail, succeed]` run
resolves `{success := true, attempts := 3}` after exactly 3 calls; and when
all `maxRetries` attempts fail it rethrows the last attempt's error. -/
theorem retryRequest_spec :
    (∀ outcomes : List Bool, (mockRetryRequest outcomes).2 ≤ maxRetries) ∧
    (∀ (outcomes : List Bool) (i : Nat), i < maxRetries →
      (∀ j, j < i → outcomes.getD j false = false) → outcomes.getD i false = true →
      mockRetryRequest outcomes = (.ok ⟨true, i + 1⟩, i + 1)) ∧
    mockRetryRequest [false, false, true] = (.ok ⟨true, 3⟩, 3) ∧
    (∀ outcomes : List Bool, (∀ i, i < maxRetries → outcomes.getD i false = false) →
      mockRetryRequest outcomes = (.error "Attempt 3 failed", 3)) := by
  refine ⟨?_, ?_, ?_, ?_⟩
  · intro outcomes
    cases h0 : outcomes.getD 0 false <;> cases h1 : outcomes.getD 1 false <;>
        cases h2 : outcomes.getD 2 false <;>
      simp_all [mockRetryRequest, maxRetries, retryGo, mockUnreliableApi, List.getD]
  · intro outcomes i hi hprev hsucc
    have hi3 : i < 3 := hi
    simp only [List.getD_eq_getElem?_getD] at hsucc
    interval_cases i
    · simp [mockRetryRequest, maxRetries, retryGo, mockUnreliableApi, hsucc]
    · have h0 := hprev 0 (by decide)
      simp only [List.getD_eq_getElem?_getD] at h0
      simp [mockRetryRequest, maxRetries, retryGo, mockUnreliableApi, h0, hsucc]
    · have h0 := hprev 0 (by decide)
      have h1 := hprev 1 (by decide)
      simp only [List.getD_eq_getElem?_getD] at h0 h1
      simp [mockRetryRequest, maxRetries, retryGo, mockUnreliableApi, h0, h1, hsucc]
  · rfl
  · intro outcomes hfail
    have h0 := hfail 0 (by decide)
    have h1 := hfail 1 (by decide)
    have h2 := hfail 2 (by decide)
    simp only [List.getD_eq_getElem?_getD] at h0 h1 h2
    simp [mockRetryRequest, maxRetries, retryGo, mockUnreliableApi, h0, h1, h2]
    decide

/-- Witness for C10: the first-success clause of `retryRequest_spec` applied
to the scripted `[fail, fail, succeed]` sequence at attempt index 2. -/
theorem retryRequest_spec_witness :
    mockRetryRequest [false, false, true] = (.ok ⟨true, 3⟩, 3) :=
  retryRequest_spec.2.1 [false, false, true] 2 (by decide)
    (fun j hj => by interval_cases j <;> decide) (by decide)

end GalleryApp
